import Mathlib

/-!
Verification of the execution-step core of a partition-parallel dataframe
engine (`daft/execution/execution_step.py`).

The development shallowly embeds the Python source:

* `PartialPartitionMetadata` and `ResourceRequest` become structures over
  `Option ℤ` / `Option ℚ` (Python ints and floats, where a `None` field means
  "unknown" / "unspecified").
* The closed `Instruction` family becomes an inductive type; every variant's
  `run_partial_metadata` becomes one arm of `runPartialMetadata`.  Assertion
  failures (Python `assert` and list-destructuring errors) are modelled by
  `Option`: `none` is a fatal error.
* Opaque expression payloads (predicates, projections, sort keys, logical
  plans) do not influence `run_partial_metadata` or the task lifecycle; they
  are omitted from the constructors, except for the numeric fields the
  functions actually read (`limit`, `start`/`end`, `num_outputs`,
  `num_quantiles`, `file_rows`, the plan's `_limit_rows`).
* Python lists are heap objects: `PartitionTaskBuilder.add_instruction`
  mutates `self.instructions` in place, and the finalize methods hand the very
  same list object to the frozen task.  To keep this observable aliasing, the
  instruction lists live in an explicit `Store` (a heap of list cells, indexed
  by allocation order) and builders/tasks hold a cell index (`instrRef`).
* `Table` is opaque to the core; for `Slice.run` a table is a list of rows and
  the `take`-by-index-series primitive of the table interface is modelled from
  the spec.
-/

/-- `PartialPartitionMetadata`: row count and byte size, each possibly
unknown (`None`). Python ints are embedded as `ℤ`. -/
structure PartialPartitionMetadata where
  num_rows : Option ℤ
  size_bytes : Option ℤ
deriving DecidableEq, Repr

/-- `ResourceRequest`: optional cpu count, gpu count (floats, embedded as
`ℚ`) and memory in bytes (int, embedded as `ℤ`). -/
structure ResourceRequest where
  num_cpus : Option ℚ := none
  num_gpus : Option ℚ := none
  memory_bytes : Option ℤ := none
deriving DecidableEq, Repr

/-- Element-wise maximum of two optional values where absence is the
identity. -/
def optMax {α : Type} [LinearOrder α] : Option α → Option α → Option α
  | none, b => b
  | a, none => a
  | some x, some y => some (max x y)

/-- Modelled from the spec: `ResourceRequest.max_resources` on two requests —
"Combinator `max_of(a, b)` returns per-field element-wise maximum where
*absent* is the identity."  (`daft/resource_request.py` is not part of the
sources; only the call from `add_instruction` is.) -/
def maxResources (a b : ResourceRequest) : ResourceRequest :=
  { num_cpus := optMax a.num_cpus b.num_cpus
    num_gpus := optMax a.num_gpus b.num_gpus
    memory_bytes := optMax a.memory_bytes b.memory_bytes }

/-- Python truthiness for `x or 1` on an optional float: `None` and `0.0` are
falsy, so both fall back to the default. -/
def pyOrOne : Option ℚ → ℚ
  | none => 1
  | some v => if v = 0 then 1 else v

/-- Python truthiness for `x or None` on an optional int: `None` stays `None`
and `0` is coerced to `None`; any other value passes through. -/
def pyOrNone : Option ℤ → Option ℤ
  | none => none
  | some v => if v = 0 then none else some v

/-- The closed instruction family of `execution_step.py`.  Constructors carry
exactly the fields that `run` / `run_partial_metadata` read; opaque expression
payloads are dropped (see the module docstring). `readFile` carries the
`file_rows` field and the plan's `_limit_rows`. -/
inductive Instruction where
  | readFile (limit_rows : Option ℤ) (file_rows : Option ℤ)
  | writeFile
  | filter
  | project
  | localCount
  | localLimit (limit : ℤ)
  | slice (start : ℤ) (stop : ℤ)
  | mapPartition
  | sample (num_samples : ℤ)
  | aggregate
  | join
  | reduceMerge
  | reduceMergeAndSort
  | reduceToQuantiles (num_quantiles : ℤ)
  | fanoutRandom (num_outputs : ℤ) (seed : ℤ)
  | fanoutHash (num_outputs : ℤ)
  | fanoutRange (num_outputs : ℤ)
deriving DecidableEq, Repr

/-- Python `sum(xs)` guarded by `all(_ is not None for _ in xs)`:
the sum of the values when every entry is present, otherwise `None`
(`sum([]) = 0` and `all([]) = True`, so the empty list yields `some 0`). -/
def sumIfAllKnown (xs : List (Option ℤ)) : Option ℤ :=
  if xs.all Option.isSome then some (xs.filterMap id).sum else none

/-- `Instruction.run_partial_metadata`, one arm per variant, straight from the
source.  `none` models a fatal assertion/destructuring error. -/
def runPartialMetadata : Instruction → List PartialPartitionMetadata →
    Option (List PartialPartitionMetadata)
  | .readFile limit_rows file_rows, input_metadatas =>
    -- assert len(input_metadatas) == 1
    if input_metadatas.length = 1 then
      -- num_rows = file_rows; only apply the limit when file_rows is known
      let num_rows : Option ℤ :=
        match file_rows, limit_rows with
        | some f, some l => some (min f l)
        | _, _ => file_rows
      some [⟨num_rows, none⟩]
    else none
  | .writeFile, input_metadatas =>
    -- assert len(input_metadatas) == 1; one file per partition
    if input_metadatas.length = 1 then some [⟨some 1, none⟩] else none
  | .filter, input_metadatas =>
    some (input_metadatas.map fun _ => ⟨none, none⟩)
  | .project, input_metadatas =>
    some (input_metadatas.map fun m => ⟨m.num_rows, none⟩)
  | .localCount, input_metadatas =>
    some (input_metadatas.map fun _ => ⟨some 1, some 104⟩)
  | .localLimit limit, input_metadatas =>
    some (input_metadatas.map fun m =>
      ⟨match m.num_rows with
       | some r => some (min limit r)
       | none => none,
       none⟩)
  | .slice start stop, input_metadatas =>
    -- [input_meta] = input_metadatas
    match input_metadatas with
    | [m] =>
      if 0 ≤ start then
        let definite_end : Option ℤ :=
          match m.num_rows with
          | some r => some (min stop r)
          | none => none
        let num_rows : Option ℤ :=
          match definite_end with
          | some d => some (max (d - start) 0)
          | none => none
        some [⟨num_rows, none⟩]
      else none
    | _ => none
  | .mapPartition, input_metadatas =>
    some (input_metadatas.map fun _ => ⟨none, none⟩)
  | .sample _, input_metadatas =>
    some (input_metadatas.map fun _ => ⟨none, none⟩)
  | .aggregate, input_metadatas =>
    some (input_metadatas.map fun _ => ⟨none, none⟩)
  | .join, _ =>
    some [⟨none, none⟩]
  | .reduceMerge, input_metadatas =>
    some [⟨sumIfAllKnown (input_metadatas.map (·.num_rows)),
           sumIfAllKnown (input_metadatas.map (·.size_bytes))⟩]
  | .reduceMergeAndSort, input_metadatas =>
    some [⟨sumIfAllKnown (input_metadatas.map (·.num_rows)),
           sumIfAllKnown (input_metadatas.map (·.size_bytes))⟩]
  | .reduceToQuantiles num_quantiles, _ =>
    some [⟨some num_quantiles, none⟩]
  | .fanoutRandom num_outputs _, _ =>
    some (List.replicate num_outputs.toNat ⟨none, none⟩)
  | .fanoutHash num_outputs, _ =>
    some (List.replicate num_outputs.toNat ⟨none, none⟩)
  | .fanoutRange num_outputs, _ =>
    some (List.replicate num_outputs.toNat ⟨none, none⟩)

/-- `np.arange(a, b)` over Python ints: the integers of `[a, b)`, empty when
`b ≤ a`. -/
def arangeZ (a b : ℤ) : List ℤ :=
  (List.range (b - a).toNat).map fun (k : ℕ) => a + (k : ℤ)

/-- Modelled from the spec: the table primitive `t.take(indices)` —
"take-by-index-series" returns the rows of `t` at the given indices (the
`Table` type itself is out of scope; a table is its list of rows). -/
def tableTake {α : Type} (t : List α) (indices : List ℤ) : List α :=
  indices.filterMap fun i => t[i.toNat]?

/-- `Slice.run` / `Slice._take`: destructure the single input table, assert
`start ≥ 0`, clamp the end to the table length, and take
`np.arange(start, end)`. -/
def sliceRun {α : Type} (start stop : ℤ) (inputs : List (List α)) :
    Option (List (List α)) :=
  match inputs with
  | [input] =>
    if 0 ≤ start then
      some [tableTake input (arangeZ start (min stop (input.length : ℤ)))]
    else none
  | _ => none

/-- The heap of Python list objects holding instruction pipelines: cell `r`
of the store is the current contents of the list allocated `r`-th. -/
abbrev Store := List (List Instruction)

/-- Read a list cell (out-of-range reads never occur for allocated refs). -/
def storeGet (s : Store) (r : ℕ) : List Instruction :=
  List.getD s r []

/-- Overwrite a list cell. -/
def storeSet (s : Store) (r : ℕ) (v : List Instruction) : Store :=
  List.set s r v

/-- `PartitionTaskBuilder`: inputs, a reference to the (shared, mutable)
instruction list, the rolling partial metadata and the rolling resource
request. -/
structure PartitionTaskBuilder (P : Type) where
  inputs : List P
  instrRef : ℕ
  partial_metadatas : List PartialPartitionMetadata
  resource_request : ResourceRequest
deriving DecidableEq, Repr

/-- `PartitionTaskBuilder.__init__`: allocate a fresh empty instruction list;
default the metadata to one all-unknown entry per input when absent. -/
def newPartitionTaskBuilder {P : Type} (s : Store) (inputs : List P)
    (partial_metadatas : Option (List PartialPartitionMetadata))
    (resource_request : ResourceRequest) :
    Store × PartitionTaskBuilder P :=
  (s ++ [[]],
   { inputs := inputs
     instrRef := s.length
     partial_metadatas :=
       match partial_metadatas with
       | some pm => pm
       | none => inputs.map fun _ => ⟨none, none⟩
     resource_request := resource_request })

/-- `PartitionTaskBuilder.add_instruction`: append to the shared instruction
list *in place*, then recompute the metadata and fold the resource request.
The returned flag is `false` when `run_partial_metadata` raises (the append
has already happened by then, mirroring the statement order of the source). -/
def addInstruction {P : Type} (s : Store) (b : PartitionTaskBuilder P)
    (instruction : Instruction) (resource_request : ResourceRequest) :
    Store × PartitionTaskBuilder P × Bool :=
  let s' := storeSet s b.instrRef (storeGet s b.instrRef ++ [instruction])
  match runPartialMetadata instruction b.partial_metadatas with
  | some pm =>
    (s',
     { b with
       partial_metadatas := pm
       resource_request := maxResources b.resource_request resource_request },
     true)
  | none => (s', b, false)

/-- A sequence of `add_instruction` calls, stopping at the first fatal
error; the flag is `true` iff every call succeeded. -/
def runAdds {P : Type} :
    Store → PartitionTaskBuilder P → List (Instruction × ResourceRequest) →
    Store × PartitionTaskBuilder P × Bool
  | s, b, [] => (s, b, true)
  | s, b, (i, r) :: rest =>
    match addInstruction s b i r with
    | (s', b', true) => runAdds s' b' rest
    | (s', b', false) => (s', b', false)

/-- `SingleOutputPartitionTask`: a frozen task plus the optional installed
result.  `R` is the runner's `MaterializedResult` type; the task-id counter is
modelled separately (see `runSpawns`). -/
structure SingleOutputPartitionTask (P R : Type) where
  inputs : List P
  instrRef : ℕ
  resource_request : ResourceRequest
  num_results : ℕ
  result : Option R := none
deriving DecidableEq, Repr

/-- `MultiOutputPartitionTask`: a frozen task plus the optional installed
result list. -/
structure MultiOutputPartitionTask (P R : Type) where
  inputs : List P
  instrRef : ℕ
  resource_request : ResourceRequest
  num_results : ℕ
  results : Option (List R) := none
deriving DecidableEq, Repr

/-- `finalize_partition_task_single_output`: freeze with `num_results = 1`,
defaulting `num_cpus` via Python `or 1` and coercing `memory_bytes` via
Python `or None` ("Lower versions of Ray do not accept 0").  The instruction
list is handed over by reference (`instrRef` is shared with the builder). -/
def finalizeSingleOutput {P R : Type} (b : PartitionTaskBuilder P) :
    SingleOutputPartitionTask P R :=
  { inputs := b.inputs
    instrRef := b.instrRef
    resource_request :=
      { num_cpus := some (pyOrOne b.resource_request.num_cpus)
        num_gpus := b.resource_request.num_gpus
        memory_bytes := pyOrNone b.resource_request.memory_bytes }
    num_results := 1
    result := none }

/-- `finalize_partition_task_multi_output`: freeze with the given
`num_results`, defaulting `num_cpus` via Python `or 1` but passing
`memory_bytes` through verbatim. -/
def finalizeMultiOutput {P R : Type} (b : PartitionTaskBuilder P)
    (num_results : ℕ) : MultiOutputPartitionTask P R :=
  { inputs := b.inputs
    instrRef := b.instrRef
    resource_request :=
      { num_cpus := some (pyOrOne b.resource_request.num_cpus)
        num_gpus := b.resource_request.num_gpus
        memory_bytes := b.resource_request.memory_bytes }
    num_results := num_results
    results := none }

/-- The instruction pipeline a frozen single-output task currently sees,
read through its shared list reference. -/
def singleTaskInstructions {P R : Type} (s : Store)
    (t : SingleOutputPartitionTask P R) : List Instruction :=
  storeGet s t.instrRef

/-- `SingleOutputPartitionTask.set_result`: assert no result is installed,
then destructure `[partition] = result` (fatal unless the list has exactly
one element) and install it.  `none` models the fatal error; the Python
object is unchanged in that case since the error is raised before the
assignment. -/
def singleSetResult {P R : Type} (t : SingleOutputPartitionTask P R)
    (result : List R) : Option (SingleOutputPartitionTask P R) :=
  if t.result.isSome then none
  else
    match result with
    | [partition] => some { t with result := some partition }
    | _ => none

/-- `SingleOutputPartitionTask.done`. -/
def singleDone {P R : Type} (t : SingleOutputPartitionTask P R) : Bool :=
  t.result.isSome

/-- `MultiOutputPartitionTask.set_result`: assert no result list is
installed, then install the given list (its length is *not* compared with
`num_results`). -/
def multiSetResult {P R : Type} (t : MultiOutputPartitionTask P R)
    (result : List R) : Option (MultiOutputPartitionTask P R) :=
  if t.results.isSome then none
  else some { t with results := some result }

/-- `MultiOutputPartitionTask.done`. -/
def multiDone {P R : Type} (t : MultiOutputPartitionTask P R) : Bool :=
  t.results.isSome

/-- The final resource request exactly as claim C3 words it: the field-wise
maximum of all requests (absent being the identity), "with `num_cpus`
replaced by 1.0 when absent after aggregation" — i.e. a present `num_cpus`
(even `0`) is kept, and `memory_bytes` is the aggregate verbatim. -/
def claimedFinalResourceRequest (agg : ResourceRequest) : ResourceRequest :=
  { num_cpus := some (agg.num_cpus.getD 1)
    num_gpus := agg.num_gpus
    memory_bytes := agg.memory_bytes }

/-- The two concrete task classes (the abstract base is never
instantiated). -/
inductive TaskKind where
  | singleOutput
  | multiOutput
deriving DecidableEq, Repr

/-- `self.__class__.__name__`, as a list of characters. -/
def className : TaskKind → List Char
  | .singleOutput => "SingleOutputPartitionTask".data
  | .multiOutput => "MultiOutputPartitionTask".data

/-- Decimal rendering of a natural number (Python `str(int)` for the
nonnegative ids issued by the counter): most-significant digit first. -/
def natReprChars (n : ℕ) : List Char :=
  if n = 0 then ['0'] else (Nat.digits 10 n).reverse.map Nat.digitChar

/-- A task as seen by the id machinery: its class and the `_id` drawn from
`ID_GEN` at construction. -/
structure SpawnedTask where
  kind : TaskKind
  idNum : ℕ
deriving DecidableEq, Repr

/-- `PartitionTask.id`: the f-string `f"{self.__class__.__name__}_{self._id}"`
as a list of characters. -/
def taskIdString (t : SpawnedTask) : List Char :=
  className t.kind ++ '_' :: natReprChars t.idNum

/-- The process lifetime, as far as `ID_GEN` is concerned: a sequence of task
constructions, each drawing `next(ID_GEN)` from the shared monotonically
increasing counter.  Returns the constructed tasks and the final counter. -/
def runSpawns : ℕ → List TaskKind → List SpawnedTask × ℕ
  | c, [] => ([], c)
  | c, k :: ks =>
    (⟨k, c⟩ :: (runSpawns (c + 1) ks).1, (runSpawns (c + 1) ks).2)

lemma runSpawns_ids (c : ℕ) (ks : List TaskKind) :
    ((runSpawns c ks).1).map (fun t => t.idNum) = List.range' c ks.length := by
  induction ks generalizing c with
  | nil => rfl
  | cons k ks ih => simp [runSpawns, ih, List.range']

lemma runSpawns_length (c : ℕ) (ks : List TaskKind) :
    ((runSpawns c ks).1).length = ks.length := by
  have h := congrArg List.length (runSpawns_ids c ks)
  simpa using h

lemma runSpawns_id_get (c : ℕ) (ks : List TaskKind) (i : ℕ)
    (hi : i < ((runSpawns c ks).1).length) :
    (((runSpawns c ks).1).get ⟨i, hi⟩).idNum = c + i := by
  induction ks generalizing c i with
  | nil => simp [runSpawns] at hi
  | cons k ks ih =>
    cases i with
    | zero => simp [runSpawns]
    | succ n =>
      have hi' : n < ((runSpawns (c + 1) ks).1).length := by
        simpa [runSpawns] using hi
      have h := ih (c + 1) n hi'
      simp only [runSpawns, List.get_eq_getElem, List.getElem_cons_succ] at h ⊢
      omega

lemma digitChar_inj_lt : ∀ a, a < 10 → ∀ b, b < 10 →
    Nat.digitChar a = Nat.digitChar b → a = b := by decide

lemma map_digitChar_inj : ∀ (xs ys : List ℕ), (∀ x ∈ xs, x < 10) →
    (∀ y ∈ ys, y < 10) → xs.map Nat.digitChar = ys.map Nat.digitChar →
    xs = ys := by
  intro xs
  induction xs with
  | nil => intro ys _ _ h; cases ys with
    | nil => rfl
    | cons y ys => simp at h
  | cons x xs ih =>
    intro ys hx hy h
    cases ys with
    | nil => simp at h
    | cons y ys =>
      simp only [List.map_cons, List.cons.injEq] at h
      have hxy : x = y :=
        digitChar_inj_lt x (hx x (by simp)) y (hy y (by simp)) h.1
      have : xs = ys :=
        ih ys (fun a ha => hx a (by simp [ha])) (fun a ha => hy a (by simp [ha])) h.2
      simp [hxy, this]

lemma natReprChars_inj : ∀ m n : ℕ, natReprChars m = natReprChars n → m = n := by
  have digitsLt : ∀ k : ℕ, ∀ d ∈ Nat.digits 10 k, d < 10 := by
    intro k d hd
    exact Nat.digits_lt_base (by norm_num) hd
  have nonzeroCase : ∀ k : ℕ, k ≠ 0 →
      (Nat.digits 10 k).reverse.map Nat.digitChar ≠ ['0'] := by
    intro k hk h
    have h9 : (Nat.digits 10 k).reverse.map Nat.digitChar = [0].map Nat.digitChar := by
      simpa using h
    have h10 : (Nat.digits 10 k).reverse = [0] := by
      refine map_digitChar_inj _ _ ?_ ?_ h9
      · intro x hx
        exact digitsLt k x (List.mem_reverse.mp hx)
      · intro y hy
        simp at hy
        omega
    have h11 : Nat.digits 10 k = [0] := by
      have := congrArg List.reverse h10
      simpa using this
    have hne2 : Nat.digits 10 k ≠ [] := by simp [h11]
    have h13 : (Nat.digits 10 k).getLast hne2 = 0 := by
      have haux : ∀ (l : List ℕ) (hl : l ≠ []), l = [0] → l.getLast hl = 0 := by
        intro l hl heq
        subst heq
        rfl
      exact haux _ hne2 h11
    exact Nat.getLast_digit_ne_zero 10 hk h13
  intro m n h
  unfold natReprChars at h
  by_cases hm : m = 0 <;> by_cases hn : n = 0
  · omega
  · rw [if_pos hm, if_neg hn] at h
    exact absurd h.symm (nonzeroCase n hn)
  · rw [if_neg hm, if_pos hn] at h
    exact absurd h (nonzeroCase m hm)
  · rw [if_neg hm, if_neg hn] at h
    have hrev : (Nat.digits 10 m).reverse = (Nat.digits 10 n).reverse := by
      refine map_digitChar_inj _ _ ?_ ?_ h
      · intro x hx; exact digitsLt m x (List.mem_reverse.mp hx)
      · intro y hy; exact digitsLt n y (List.mem_reverse.mp hy)
    have hdig : Nat.digits 10 m = Nat.digits 10 n := by
      have := congrArg List.reverse hrev
      simpa using this
    calc m = Nat.ofDigits 10 (Nat.digits 10 m) := (Nat.ofDigits_digits 10 m).symm
      _ = Nat.ofDigits 10 (Nat.digits 10 n) := by rw [hdig]
      _ = n := Nat.ofDigits_digits 10 n

lemma append_underscore_inj : ∀ (a : List Char) (b : List Char)
    (x y : List Char), '_' ∉ a → '_' ∉ b →
    a ++ '_' :: x = b ++ '_' :: y → a = b ∧ x = y := by
  intro a
  induction a with
  | nil =>
    intro b x y _ hb h
    cases b with
    | nil => simpa using h
    | cons c bs =>
      simp only [List.nil_append, List.cons_append, List.cons.injEq] at h
      exact absurd (h.1.symm ▸ List.mem_cons_self c bs) hb
  | cons c as ih =>
    intro b x y ha hb h
    cases b with
    | nil =>
      simp only [List.nil_append, List.cons_append, List.cons.injEq] at h
      exact absurd (h.1 ▸ List.mem_cons_self c as) ha
    | cons d bs =>
      simp only [List.cons_append, List.cons.injEq] at h
      have := ih bs x y (fun hmem => ha (List.mem_cons_of_mem c hmem))
        (fun hmem => hb (List.mem_cons_of_mem d hmem)) h.2
      exact ⟨by simp [h.1, this.1], this.2⟩

lemma underscore_not_mem_className : ∀ k : TaskKind, '_' ∉ className k := by
  intro k
  cases k <;> decide

lemma taskIdString_inj (s t : SpawnedTask) (h : taskIdString s = taskIdString t) :
    s.idNum = t.idNum := by
  unfold taskIdString at h
  have := append_underscore_inj (className s.kind) (className t.kind)
    (natReprChars s.idNum) (natReprChars t.idNum)
    (underscore_not_mem_className s.kind) (underscore_not_mem_className t.kind) h
  exact natReprChars_inj _ _ this.2

lemma sumIfAllKnown_map {β : Type} (f : β → Option ℤ) (ms : List β) :
    sumIfAllKnown (ms.map f) =
      if ∀ m ∈ ms, f m ≠ none then some ((ms.filterMap f).sum) else none := by
  have hall : ((ms.map f).all Option.isSome = true) ↔ (∀ m ∈ ms, f m ≠ none) := by
    simp [List.all_eq_true, Option.isSome_iff_ne_none]
  have hfm : (ms.map f).filterMap id = ms.filterMap f := by
    rw [List.filterMap_map]
    simp
  unfold sumIfAllKnown
  by_cases h : ∀ m ∈ ms, f m ≠ none
  · rw [if_pos (hall.mpr h), if_pos h, hfm]
  · rw [if_neg (fun hc => h (hall.mp hc)), if_neg h]

/-- C6 (confirmed): `LocalLimit(k).run_partial_metadata` maps a known row
count `r` to `min(k, r)` and an unknown one to unknown, always leaves
`size_bytes` unknown, and produces one output entry per input entry. -/
theorem localLimit_metadata_rule (k : ℤ) (ms : List PartialPartitionMetadata) :
    runPartialMetadata (.localLimit k) ms =
      some (ms.map fun m =>
        ⟨Option.map (fun r => min k r) m.num_rows, none⟩) := by
  have hf : (fun m : PartialPartitionMetadata =>
      (⟨match m.num_rows with
        | some r => some (min k r)
        | none => none, none⟩ : PartialPartitionMetadata)) =
      fun m => ⟨Option.map (fun r => min k r) m.num_rows, none⟩ := by
    funext m
    cases m.num_rows <;> rfl
  exact congrArg (fun f => some (List.map f ms)) hf

/-- C8 (confirmed): `ReadFile.run_partial_metadata` on a single input
metadata yields `min(file_rows, plan limit)` when both are known, the bare
`file_rows` when only it is known, and unknown when `file_rows` is unknown
even if the limit is known; `size_bytes` is always unknown. -/
theorem readFile_metadata_rule (f l : ℤ) (lim : Option ℤ)
    (m : PartialPartitionMetadata) :
    runPartialMetadata (.readFile (some l) (some f)) [m] =
        some [⟨some (min f l), none⟩]
    ∧ runPartialMetadata (.readFile none (some f)) [m] = some [⟨some f, none⟩]
    ∧ runPartialMetadata (.readFile lim none) [m] = some [⟨none, none⟩] := by
  refine ⟨rfl, rfl, ?_⟩
  cases lim <;> rfl

/-- C7 (confirmed): `ReduceMerge.run_partial_metadata` and
`ReduceMergeAndSort.run_partial_metadata` agree; both return exactly one
entry whose `num_rows` is the sum of all input `num_rows` when every one is
known and unknown otherwise, and likewise for `size_bytes`. -/
theorem reduceMerge_metadata_rule (ms : List PartialPartitionMetadata) :
    runPartialMetadata .reduceMergeAndSort ms = runPartialMetadata .reduceMerge ms
    ∧ runPartialMetadata .reduceMerge ms =
        some [⟨if ∀ m ∈ ms, m.num_rows ≠ none
               then some ((ms.filterMap fun m => m.num_rows).sum) else none,
               if ∀ m ∈ ms, m.size_bytes ≠ none
               then some ((ms.filterMap fun m => m.size_bytes).sum) else none⟩] := by
  constructor
  · rfl
  · have h1 : runPartialMetadata .reduceMerge ms =
        some [⟨sumIfAllKnown (ms.map fun m => m.num_rows),
               sumIfAllKnown (ms.map fun m => m.size_bytes)⟩] := rfl
    rw [h1, sumIfAllKnown_map, sumIfAllKnown_map]

/-- Witness for C7 at a concrete input: rows all known sum to 5; one size
unknown makes the output size unknown. -/
theorem reduceMerge_metadata_rule_witness :
    runPartialMetadata .reduceMerge [⟨some 2, none⟩, ⟨some 3, some 5⟩] =
      some [⟨some 5, none⟩] := by
  have h := (reduceMerge_metadata_rule [⟨some 2, none⟩, ⟨some 3, some 5⟩]).2
  rw [h]
  decide

lemma singleSetResult_eq_some_iff {P R : Type} (t t' : SingleOutputPartitionTask P R)
    (res : List R) :
    singleSetResult t res = some t' ↔
      t.result = none ∧ ∃ x, res = [x] ∧ t' = { t with result := some x } := by
  unfold singleSetResult
  cases hres : t.result with
  | some v => simp
  | none =>
    cases res with
    | nil => simp
    | cons a l =>
      cases l with
      | nil =>
        simp only [Option.isSome_none, Bool.false_eq_true, if_false,
          Option.some.injEq, List.cons.injEq, and_true, true_and]
        constructor
        · intro h
          exact ⟨a, rfl, h.symm⟩
        · rintro ⟨x, hx, ht⟩
          rw [ht, hx]
      | cons b l2 => simp

lemma multiSetResult_eq_some_iff {P R : Type} (t t' : MultiOutputPartitionTask P R)
    (res : List R) :
    multiSetResult t res = some t' ↔
      t.results = none ∧ t' = { t with results := some res } := by
  unfold multiSetResult
  cases hres : t.results with
  | some v => simp
  | none =>
    constructor
    · intro h
      have h2 : some { t with results := some res } = some t' := h
      injection h2 with h3
      exact ⟨rfl, h3.symm⟩
    · rintro ⟨_, ht⟩
      rw [ht]
      rfl

/-- C1 (corrected): `set_result` on a single-output task succeeds exactly
when no result is installed and the list has one element; on a multi-output
task it succeeds exactly when no result is installed — the length is *not*
compared with `num_results`.  In both classes a second call fails fatally
and `done()` is true after a successful call. -/
theorem set_result_lifecycle {P R : Type} :
    (∀ (t : SingleOutputPartitionTask P R) (res : List R),
        (singleSetResult t res).isSome ↔ (t.result = none ∧ res.length = 1))
    ∧ (∀ (t : MultiOutputPartitionTask P R) (res : List R),
        (multiSetResult t res).isSome ↔ t.results = none)
    ∧ (∀ (t t' : SingleOutputPartitionTask P R) (res res' : List R),
        singleSetResult t res = some t' → singleSetResult t' res' = none)
    ∧ (∀ (t t' : MultiOutputPartitionTask P R) (res res' : List R),
        multiSetResult t res = some t' → multiSetResult t' res' = none)
    ∧ (∀ (t t' : SingleOutputPartitionTask P R) (res : List R),
        singleSetResult t res = some t' → singleDone t' = true)
    ∧ (∀ (t t' : MultiOutputPartitionTask P R) (res : List R),
        multiSetResult t res = some t' → multiDone t' = true) := by
  refine ⟨?_, ?_, ?_, ?_, ?_, ?_⟩
  · intro t res
    rw [Option.isSome_iff_exists]
    constructor
    · rintro ⟨t', ht⟩
      obtain ⟨h1, x, hx, _⟩ := (singleSetResult_eq_some_iff t t' res).mp ht
      exact ⟨h1, by rw [hx]; rfl⟩
    · rintro ⟨h1, h2⟩
      cases res with
      | nil => simp at h2
      | cons a l =>
        cases l with
        | nil =>
          exact ⟨{ t with result := some a },
            (singleSetResult_eq_some_iff t _ [a]).mpr ⟨h1, a, rfl, rfl⟩⟩
        | cons b l2 => simp at h2
  · intro t res
    rw [Option.isSome_iff_exists]
    constructor
    · rintro ⟨t', ht⟩
      exact ((multiSetResult_eq_some_iff t t' res).mp ht).1
    · intro h1
      exact ⟨{ t with results := some res },
        (multiSetResult_eq_some_iff t _ res).mpr ⟨h1, rfl⟩⟩
  · intro t t' res res' h
    obtain ⟨_, x, _, ht⟩ := (singleSetResult_eq_some_iff t t' res).mp h
    rw [ht]
    unfold singleSetResult
    simp
  · intro t t' res res' h
    obtain ⟨_, ht⟩ := (multiSetResult_eq_some_iff t t' res).mp h
    rw [ht]
    unfold multiSetResult
    simp
  · intro t t' res h
    obtain ⟨_, x, _, ht⟩ := (singleSetResult_eq_some_iff t t' res).mp h
    rw [ht]
    rfl
  · intro t t' res h
    obtain ⟨_, ht⟩ := (multiSetResult_eq_some_iff t t' res).mp h
    rw [ht]
    rfl

/-- Witness for C1: a pending single-output task accepts a length-1 list,
and the resulting materialized task rejects a second `set_result`. -/
theorem set_result_lifecycle_witness :
    multiSetResult (P := Unit) (R := Unit)
        ⟨[], 0, ⟨none, none, none⟩, 4, some [()]⟩ [()] = none :=
  (set_result_lifecycle.2.2.2.1 ⟨[], 0, ⟨none, none, none⟩, 4, none⟩
    ⟨[], 0, ⟨none, none, none⟩, 4, some [()]⟩ [()] [()] (by decide))

/-- Counterexample for C1 as stated: a pending `MultiOutputPartitionTask`
with `num_results = 4` accepts a result list of length 3 — the source never
compares the list length with `num_results`. -/
theorem multi_set_result_length_unchecked :
    (multiSetResult (P := Unit) (R := Unit)
        ⟨[], 0, ⟨none, none, none⟩, 4, none⟩ [(), (), ()]).isSome = true
    ∧ ([(), (), ()] : List Unit).length ≠ 4 := by
  constructor
  · rfl
  · decide

/-- C10 (confirmed): calling `set_result` on a pending single-output task
with a list whose length is not 1 fails before any result is installed: the
task is still pending (`done()` is false) and a later `set_result` with a
length-1 list succeeds. -/
theorem failed_set_result_leaves_pending {P R : Type}
    (t : SingleOutputPartitionTask P R) (res : List R)
    (hpend : t.result = none) (hlen : res.length ≠ 1) :
    singleSetResult t res = none ∧ singleDone t = false
    ∧ ∀ res' : List R, res'.length = 1 → (singleSetResult t res').isSome := by
  refine ⟨?_, ?_, ?_⟩
  · unfold singleSetResult
    rw [hpend]
    cases res with
    | nil => simp
    | cons a l =>
      cases l with
      | nil => exact absurd rfl hlen
      | cons b l2 => simp
  · simp [singleDone, hpend]
  · intro res' h1
    cases res' with
    | nil => simp at h1
    | cons a l =>
      cases l with
      | nil => simp [singleSetResult, hpend]
      | cons b l2 => simp at h1

/-- Witness for C10: a length-0 result list is rejected and the concrete
task stays pending. -/
theorem failed_set_result_leaves_pending_witness :
    singleSetResult (P := Unit) (R := Unit)
        ⟨[], 0, ⟨none, none, none⟩, 1, none⟩ [] = none :=
  (failed_set_result_leaves_pending ⟨[], 0, ⟨none, none, none⟩, 1, none⟩ []
    rfl (by decide)).1

/-- C4 (confirmed): the single-output finalizer coerces an aggregated
`memory_bytes` of 0 to absent while the multi-output finalizer passes
`memory_bytes` through verbatim; `num_cpus` and `num_gpus` are treated
identically by the two finalizers. -/
theorem finalize_memory_asymmetry {P R : Type} (b : PartitionTaskBuilder P)
    (k : ℕ) :
    ((finalizeSingleOutput (R := R) b).resource_request.num_cpus
        = (finalizeMultiOutput (R := R) b k).resource_request.num_cpus)
    ∧ ((finalizeSingleOutput (R := R) b).resource_request.num_gpus
        = (finalizeMultiOutput (R := R) b k).resource_request.num_gpus)
    ∧ ((finalizeMultiOutput (R := R) b k).resource_request.memory_bytes
        = b.resource_request.memory_bytes)
    ∧ (b.resource_request.memory_bytes = some 0 →
        (finalizeSingleOutput (R := R) b).resource_request.memory_bytes = none)
    ∧ (∀ v : ℤ, v ≠ 0 → b.resource_request.memory_bytes = some v →
        (finalizeSingleOutput (R := R) b).resource_request.memory_bytes = some v)
    ∧ (b.resource_request.memory_bytes = none →
        (finalizeSingleOutput (R := R) b).resource_request.memory_bytes = none) := by
  refine ⟨rfl, rfl, rfl, ?_, ?_, ?_⟩
  · intro h
    simp [finalizeSingleOutput, pyOrNone, h]
  · intro v hv h
    simp [finalizeSingleOutput, pyOrNone, h, hv]
  · intro h
    simp [finalizeSingleOutput, pyOrNone, h]

/-- Witness for C4: an aggregated `memory_bytes` of 0 becomes absent in the
single-output freeze of a concrete builder. -/
theorem finalize_memory_asymmetry_witness :
    (finalizeSingleOutput (R := Unit)
        (⟨[], 0, [], ⟨none, none, some 0⟩⟩ : PartitionTaskBuilder Unit)
      ).resource_request.memory_bytes = none :=
  (finalize_memory_asymmetry (R := Unit) ⟨[], 0, [], ⟨none, none, some 0⟩⟩
    4).2.2.2.1 rfl

/-- C2 (code bug): the frozen task and the builder share one instruction
list object, so `add_instruction` after a finalize mutates the frozen task's
pipeline.  A builder holding `[LocalLimit 10]` is frozen; through the shared
list the frozen task first reads `[LocalLimit 10]`, and after the builder
appends `LocalLimit 5` the *same* task value reads
`[LocalLimit 10, LocalLimit 5]` — contradicting the source's own docstring
("cannot have instructions added"). -/
theorem frozen_task_pipeline_mutates :
    singleTaskInstructions
        (addInstruction (newPartitionTaskBuilder ([] : Store) [()] none ⟨none, none, none⟩).1
          (newPartitionTaskBuilder ([] : Store) [()] none ⟨none, none, none⟩).2
          (.localLimit 10) ⟨none, none, none⟩).1
        (finalizeSingleOutput (R := Unit)
          (addInstruction (newPartitionTaskBuilder ([] : Store) [()] none ⟨none, none, none⟩).1
            (newPartitionTaskBuilder ([] : Store) [()] none ⟨none, none, none⟩).2
            (.localLimit 10) ⟨none, none, none⟩).2.1)
      = [.localLimit 10]
    ∧ (addInstruction
          (addInstruction (newPartitionTaskBuilder ([] : Store) [()] none ⟨none, none, none⟩).1
            (newPartitionTaskBuilder ([] : Store) [()] none ⟨none, none, none⟩).2
            (.localLimit 10) ⟨none, none, none⟩).1
          (addInstruction (newPartitionTaskBuilder ([] : Store) [()] none ⟨none, none, none⟩).1
            (newPartitionTaskBuilder ([] : Store) [()] none ⟨none, none, none⟩).2
            (.localLimit 10) ⟨none, none, none⟩).2.1
          (.localLimit 5) ⟨none, none, none⟩).2.2 = true
    ∧ singleTaskInstructions
        (addInstruction
          (addInstruction (newPartitionTaskBuilder ([] : Store) [()] none ⟨none, none, none⟩).1
            (newPartitionTaskBuilder ([] : Store) [()] none ⟨none, none, none⟩).2
            (.localLimit 10) ⟨none, none, none⟩).1
          (addInstruction (newPartitionTaskBuilder ([] : Store) [()] none ⟨none, none, none⟩).1
            (newPartitionTaskBuilder ([] : Store) [()] none ⟨none, none, none⟩).2
            (.localLimit 10) ⟨none, none, none⟩).2.1
          (.localLimit 5) ⟨none, none, none⟩).1
        (finalizeSingleOutput (R := Unit)
          (addInstruction (newPartitionTaskBuilder ([] : Store) [()] none ⟨none, none, none⟩).1
            (newPartitionTaskBuilder ([] : Store) [()] none ⟨none, none, none⟩).2
            (.localLimit 10) ⟨none, none, none⟩).2.1)
      = [.localLimit 10, .localLimit 5] := by
  refine ⟨rfl, rfl, rfl⟩

lemma runAdds_resource_request {P : Type} (L : List (Instruction × ResourceRequest)) :
    ∀ (s : Store) (b : PartitionTaskBuilder P),
    (runAdds s b L).2.2 = true →
    ((runAdds s b L).2.1).resource_request =
      L.foldl (fun acc p => maxResources acc p.2) b.resource_request := by
  induction L with
  | nil =>
    intro s b _
    rfl
  | cons p rest ih =>
    intro s b hok
    obtain ⟨i, r⟩ := p
    cases hpm : runPartialMetadata i b.partial_metadatas with
    | some pm =>
      have hstep : addInstruction s b i r =
          (storeSet s b.instrRef (storeGet s b.instrRef ++ [i]),
           { b with
             partial_metadatas := pm
             resource_request := maxResources b.resource_request r }, true) := by
        unfold addInstruction
        rw [hpm]
      have hrun : runAdds s b ((i, r) :: rest) =
          runAdds (storeSet s b.instrRef (storeGet s b.instrRef ++ [i]))
            { b with
              partial_metadatas := pm
              resource_request := maxResources b.resource_request r } rest := by
        rw [runAdds, hstep]
      rw [hrun] at hok
      rw [hrun, List.foldl_cons]
      exact ih _ _ hok
    | none =>
      have hstep : addInstruction s b i r =
          (storeSet s b.instrRef (storeGet s b.instrRef ++ [i]), b, false) := by
        unfold addInstruction
        rw [hpm]
      have hrun : runAdds s b ((i, r) :: rest) =
          (storeSet s b.instrRef (storeGet s b.instrRef ++ [i]), b, false) := by
        rw [runAdds, hstep]
      rw [hrun] at hok
      simp at hok

/-- Counterexample for C3 as stated: with an initial request
`{num_cpus: 0.0, memory_bytes: 0}` and no added instructions, the claim
predicts the frozen request keeps the present `num_cpus = 0` and
`memory_bytes = 0`, but the source's `or`-based defaulting produces
`num_cpus = 1` and `memory_bytes = None`. -/
theorem resource_aggregation_counterexample :
    (finalizeSingleOutput (P := Unit) (R := Unit)
        (runAdds ([[]] : Store) ⟨[], 0, [], ⟨some 0, none, some 0⟩⟩ []).2.1
      ).resource_request
      ≠ claimedFinalResourceRequest ⟨some 0, none, some 0⟩ := by
  decide

/-- C3 (corrected): after any successful sequence of `add_instruction`
calls, the frozen single-output task's resource request is the field-wise
maximum (absence the identity) of the initial and all instruction-level
requests, except that `num_cpus` is replaced by 1 when absent *or zero*
(Python `or 1`) and a zero `memory_bytes` is coerced to absent
(Python `or None`). -/
theorem resource_aggregation_amended {P R : Type} (s : Store)
    (b : PartitionTaskBuilder P) (L : List (Instruction × ResourceRequest))
    (hok : (runAdds s b L).2.2 = true) :
    (finalizeSingleOutput (R := R) (runAdds s b L).2.1).resource_request =
      { num_cpus := some (pyOrOne
          (L.foldl (fun acc p => maxResources acc p.2) b.resource_request).num_cpus)
        num_gpus :=
          (L.foldl (fun acc p => maxResources acc p.2) b.resource_request).num_gpus
        memory_bytes := pyOrNone
          (L.foldl (fun acc p => maxResources acc p.2) b.resource_request).memory_bytes } := by
  have h := runAdds_resource_request L s b hok
  simp [finalizeSingleOutput, h]

/-- Witness for C3 (amended), mirroring spec scenario S6: requests
`{num_gpus: 1.0}` and `{memory_bytes: 2e9}` aggregate to a frozen request
with defaulted `num_cpus = 1.0`, `num_gpus = 1.0`, `memory_bytes = 2e9`. -/
theorem resource_aggregation_amended_witness :
    (runAdds ([[]] : Store)
        (⟨[], 0, [⟨some 100, none⟩], ⟨none, none, none⟩⟩ : PartitionTaskBuilder Unit)
        [(.localLimit 10, ⟨none, some 1, none⟩),
         (.project, ⟨none, none, some 2000000000⟩)]).2.2 = true
    ∧ (finalizeSingleOutput (R := Unit)
        (runAdds ([[]] : Store)
          (⟨[], 0, [⟨some 100, none⟩], ⟨none, none, none⟩⟩ : PartitionTaskBuilder Unit)
          [(.localLimit 10, ⟨none, some 1, none⟩),
           (.project, ⟨none, none, some 2000000000⟩)]).2.1).resource_request
      = ⟨some 1, some 1, some 2000000000⟩ := by
  constructor
  · decide
  · rw [resource_aggregation_amended _ _ _ (by decide)]
    decide

lemma filterMap_getElem_range {α : Type} (t : List α) (st : ℕ) (n : ℕ) :
    (List.range n).filterMap (fun k => t[st + k]?) = (t.drop st).take n := by
  induction n with
  | zero => simp
  | succ n ih =>
    rw [List.range_succ, List.filterMap_append, ih, List.take_succ]
    congr 1
    rw [List.getElem?_drop t st n]
    cases h : t[st + n]? <;> simp [List.filterMap_cons, h]

lemma tableTake_arange {α : Type} (t : List α) (s e : ℤ) (hs : 0 ≤ s) :
    tableTake t (arangeZ s e) = (t.drop s.toNat).take (e.toNat - s.toNat) := by
  unfold tableTake arangeZ
  rw [List.filterMap_map]
  have hfun : ∀ k ∈ List.range (e - s).toNat,
      ((fun i : ℤ => t[i.toNat]?) ∘ (fun k : ℕ => s + (k : ℤ))) k =
        (fun k : ℕ => t[s.toNat + k]?) k := by
    intro k _
    simp only [Function.comp]
    congr 1
    omega
  rw [List.filterMap_congr hfun, filterMap_getElem_range]
  congr 1
  omega

/-- C5 (confirmed): for `s ≥ 0`, `Slice(s, e).run([t])` returns exactly one
table holding the rows of `t` at indices `[s, min(e, len(t)))`, and its
metadata rule maps a known row count `r` to `max(0, min(e, r) - s)` and an
unknown one to unknown, with `size_bytes` always unknown. -/
theorem slice_spec {α : Type} (s e : ℤ) (t : List α) (hs : 0 ≤ s) :
    sliceRun s e [t] =
      some [(t.drop s.toNat).take ((min e (t.length : ℤ)).toNat - s.toNat)]
    ∧ (∀ (r : ℤ) (sb : Option ℤ),
        runPartialMetadata (.slice s e) [⟨some r, sb⟩] =
          some [⟨some (max 0 (min e r - s)), none⟩])
    ∧ (∀ sb : Option ℤ,
        runPartialMetadata (.slice s e) [⟨none, sb⟩] = some [⟨none, none⟩]) := by
  refine ⟨?_, ?_, ?_⟩
  · show (if 0 ≤ s then some [tableTake t (arangeZ s (min e (t.length : ℤ)))]
        else none) =
      some [(t.drop s.toNat).take ((min e (t.length : ℤ)).toNat - s.toNat)]
    rw [if_pos hs, tableTake_arange t s _ hs]
  · intro r sb
    have harm : runPartialMetadata (.slice s e) [⟨some r, sb⟩] =
        if 0 ≤ s then some [⟨some (max (min e r - s) 0), none⟩] else none := rfl
    rw [harm, if_pos hs, max_comm]
  · intro sb
    have harm : runPartialMetadata (.slice s e) [⟨none, sb⟩] =
        if 0 ≤ s then some [⟨none, none⟩] else none := rfl
    rw [harm, if_pos hs]

/-- Witness for C5, mirroring spec scenario S4: a 5-row input sliced with
`Slice(3, 100)` yields the 2 rows at indices 3 and 4, and the metadata rule
reports 2 rows for a known input of 5. -/
theorem slice_spec_witness :
    sliceRun 3 100 [[0, 1, 2, 3, 4]] = some [[(3 : ℕ), 4]]
    ∧ runPartialMetadata (.slice 3 100) [⟨some 5, none⟩] = some [⟨some 2, none⟩] := by
  have h := slice_spec 3 100 ([0, 1, 2, 3, 4] : List ℕ) (by decide)
  constructor
  · rw [h.1]
    decide
  · rw [h.2.1 5 none]
    decide

/-- C9 (confirmed): tasks drawn from one counter during a process lifetime
have pairwise distinct `_id`s, increasing in construction order, and hence
pairwise distinct `id()` strings. -/
theorem unique_task_ids (c : ℕ) (kinds : List TaskKind) (i j : ℕ)
    (hi : i < ((runSpawns c kinds).1).length)
    (hj : j < ((runSpawns c kinds).1).length) (hij : i ≠ j) :
    (((runSpawns c kinds).1).get ⟨i, hi⟩).idNum
        ≠ (((runSpawns c kinds).1).get ⟨j, hj⟩).idNum
    ∧ taskIdString (((runSpawns c kinds).1).get ⟨i, hi⟩)
        ≠ taskIdString (((runSpawns c kinds).1).get ⟨j, hj⟩)
    ∧ (i < j →
        (((runSpawns c kinds).1).get ⟨i, hi⟩).idNum
          < (((runSpawns c kinds).1).get ⟨j, hj⟩).idNum) := by
  have h1 := runSpawns_id_get c kinds i hi
  have h2 := runSpawns_id_get c kinds j hj
  refine ⟨?_, ?_, ?_⟩
  · rw [h1, h2]
    omega
  · intro hstr
    have hid := taskIdString_inj _ _ hstr
    rw [h1, h2] at hid
    omega
  · intro hlt
    rw [h1, h2]
    omega

/-- Witness for C9: the first two tasks of a concrete spawn sequence have
different ids. -/
theorem unique_task_ids_witness :
    (((runSpawns 0 [TaskKind.singleOutput, TaskKind.multiOutput]).1).get
        ⟨0, by decide⟩).idNum
      ≠ (((runSpawns 0 [TaskKind.singleOutput, TaskKind.multiOutput]).1).get
        ⟨1, by decide⟩).idNum :=
  (unique_task_ids 0 [TaskKind.singleOutput, TaskKind.multiOutput] 0 1
    (by decide) (by decide) (by decide)).1
